import Mathlib

/-!
Verification of the synthetic-data generator of `ORMVsRawSQL`
(`src/setup_db_oltp.ts`, `src/setup_db_olap.ts`).

The seeding code is embedded shallowly:

* The pseudo-random source (`faker`) is modelled by universally quantified
  draw values; `faker.number.int({min, max})` is modelled by `fakerInt`,
  which maps an arbitrary raw draw into the closed interval `[min, max]`.
* The batch loops `for (let i = 0; i < N; i += BATCH_SIZE)` with inner
  loops `for (let j = 0; j < BATCH_SIZE && i + j < N; j++)` are embedded
  as `outerBatches` / `innerRows` (fuel-based structural recursion; the
  fuel is an upper bound on the iteration count, proved sufficient).
* Row generators are embedded one-to-one from the TypeScript row
  construction; monetary values are rationals, `toFixed(2)`/`parseFloat`
  rounding is `round2`.
* JavaScript `Date` iteration and `getDay()` are embedded with a
  proleptic-Gregorian day count (`daysFromCivil`), anchored so that
  1970-01-01 is a Thursday (`getDay() = 4`), as specified for JS dates.
-/

/-- `faker.number.int({min := lo, max := hi})`: an arbitrary raw draw `r`
mapped into the closed range `[lo, hi]`. -/
def fakerInt (lo hi r : ℕ) : ℕ := lo + r % (hi - lo + 1)

theorem fakerInt_le_left (lo hi r : ℕ) : lo ≤ fakerInt lo hi r :=
  Nat.le_add_right _ _

theorem fakerInt_le_right (lo hi r : ℕ) (h : lo ≤ hi) : fakerInt lo hi r ≤ hi := by
  have hmod : r % (hi - lo + 1) < hi - lo + 1 := Nat.mod_lt _ (Nat.succ_pos _)
  unfold fakerInt
  omega

/-- `toFixed(2)` followed by `parseFloat`: rounding to two decimal places. -/
def round2 (x : ℚ) : ℚ := (round (x * 100) : ℚ) / 100

/-! ## The batch loop

`innerRows N c b` is the number of rows pushed by the inner loop
`for (let j = 0; j < BATCH_SIZE && i + j < N; j++)` when `c = i + j` rows
remain to be considered and `b` inner iterations of budget remain. -/

def innerRows (N : ℕ) : ℕ → ℕ → ℕ
  | _, 0 => 0
  | c, b + 1 => if c < N then innerRows N (c + 1) b + 1 else 0

theorem innerRows_eq_min (N : ℕ) : ∀ b c, innerRows N c b = min b (N - c) := by
  intro b
  induction b with
  | zero => intro c; simp [innerRows]
  | succ b ih =>
    intro c
    by_cases h : c < N
    · simp only [innerRows, if_pos h, ih (c + 1)]
      omega
    · simp only [innerRows, if_neg h]
      omega

/-- The outer loop `for (let i = 0; i < N; i += B)`, returning the list of
batch sizes in issue order.  `fuel` bounds the number of iterations. -/
def outerBatches (N B : ℕ) : ℕ → ℕ → List ℕ
  | 0, _ => []
  | fuel + 1, i => if i < N then innerRows N i B :: outerBatches N B fuel (i + B) else []

/-- Batch sizes produced by one table's seeding loop with target `N` and
batch size `B` (fuel `N` suffices for every positive `B`). -/
def batchSizes (N B : ℕ) : List ℕ := outerBatches N B N 0

theorem outerBatches_of_le (N B : ℕ) (fuel i : ℕ) (h : N ≤ i) :
    outerBatches N B fuel i = [] := by
  cases fuel with
  | zero => rfl
  | succ fuel => simp [outerBatches, Nat.not_lt.mpr h]

theorem outerBatches_sum (N B : ℕ) (hB : 0 < B) :
    ∀ fuel i, N ≤ i + fuel * B → (outerBatches N B fuel i).sum = N - i := by
  intro fuel
  induction fuel with
  | zero => intro i h; simp only [outerBatches, List.sum_nil]; omega
  | succ fuel ih =>
    intro i h
    rw [Nat.succ_mul] at h
    by_cases hi : i < N
    · have hrec := ih (i + B) (by omega)
      have hmin := innerRows_eq_min N B i
      simp only [outerBatches, if_pos hi, List.sum_cons, hrec]
      omega
    · simp only [outerBatches, if_neg hi, List.sum_nil]; omega

theorem outerBatches_length (N B : ℕ) (hB : 0 < B) :
    ∀ fuel i, N ≤ i + fuel * B → (outerBatches N B fuel i).length = (N - i + B - 1) / B := by
  intro fuel
  induction fuel with
  | zero =>
    intro i h
    have : N - i = 0 := by omega
    simp only [outerBatches, List.length_nil, this]
    rw [Nat.div_eq_of_lt (by omega)]
  | succ fuel ih =>
    intro i h
    rw [Nat.succ_mul] at h
    by_cases hi : i < N
    · have hrec := ih (i + B) (by omega)
      simp only [outerBatches, if_pos hi, List.length_cons, hrec]
      -- remaining row counts
      have h1 : N - i - 1 + B = N - i + B - 1 := by omega
      by_cases hle : N ≤ i + B
      · have h2 : N - (i + B) = 0 := by omega
        rw [h2]
        rw [Nat.div_eq_of_lt (by omega)]
        have h3 : N - i + B - 1 = (N - i - 1) + B := by omega
        rw [h3, Nat.add_div_right _ hB, Nat.div_eq_of_lt (by omega)]
      · have h3 : N - i + B - 1 = (N - i - 1) + B := by omega
        have h4 : N - (i + B) + B - 1 = (N - (i + B) - 1) + B := by omega
        rw [h3, h4, Nat.add_div_right _ hB, Nat.add_div_right _ hB]
        have h5 : N - i - 1 = (N - (i + B) - 1) + B := by omega
        rw [h5, Nat.add_div_right _ hB]
    · have h0 : N - i = 0 := by omega
      simp only [outerBatches, if_neg hi, List.length_nil, h0]
      rw [Nat.div_eq_of_lt (by omega)]

theorem outerBatches_mem (N B : ℕ) (hB : 0 < B) :
    ∀ fuel i, ∀ s ∈ outerBatches N B fuel i, 0 < s ∧ s ≤ B := by
  intro fuel
  induction fuel with
  | zero => intro i s hs; simp [outerBatches] at hs
  | succ fuel ih =>
    intro i s hs
    by_cases hi : i < N
    · simp only [outerBatches, if_pos hi, List.mem_cons] at hs
      rcases hs with rfl | hs
      · rw [innerRows_eq_min]; omega
      · exact ih (i + B) s hs
    · simp [outerBatches, if_neg hi] at hs

theorem outerBatches_mem_of_dvd (N B : ℕ) (hB : 0 < B) (hD : B ∣ N) :
    ∀ fuel i, B ∣ i → ∀ s ∈ outerBatches N B fuel i, s = B := by
  intro fuel
  induction fuel with
  | zero => intro i _ s hs; simp [outerBatches] at hs
  | succ fuel ih =>
    intro i hdvd s hs
    by_cases hi : i < N
    · simp only [outerBatches, if_pos hi, List.mem_cons] at hs
      rcases hs with rfl | hs
      · rw [innerRows_eq_min]
        have hdd : B ∣ N - i := Nat.dvd_sub' hD hdvd
        have hpos : 0 < N - i := by omega
        have hle : B ≤ N - i := Nat.le_of_dvd hpos hdd
        omega
      · exact ih (i + B) (Dvd.dvd.add hdvd dvd_rfl) s hs
    · simp [outerBatches, if_neg hi] at hs

theorem outerBatches_getLast? (N B : ℕ) (hB : 0 < B) (hND : ¬ B ∣ N) :
    ∀ fuel i, N ≤ i + fuel * B → i < N → B ∣ i →
      (outerBatches N B fuel i).getLast? = some (N % B) := by
  intro fuel
  induction fuel with
  | zero => intro i h hi _; omega
  | succ fuel ih =>
    intro i h hi hdvd
    rw [Nat.succ_mul] at h
    simp only [outerBatches, if_pos hi]
    by_cases hnext : i + B < N
    · have hrec := ih (i + B) (by omega) hnext (Dvd.dvd.add hdvd dvd_rfl)
      obtain ⟨y, ys, hys⟩ : ∃ y ys, outerBatches N B fuel (i + B) = y :: ys := by
        cases hE : outerBatches N B fuel (i + B) with
        | nil => rw [hE] at hrec; simp at hrec
        | cons y ys => exact ⟨y, ys, rfl⟩
      rw [hys, List.getLast?_cons_cons, ← hys]
      exact hrec
    · have hempty : outerBatches N B fuel (i + B) = [] :=
        outerBatches_of_le N B fuel (i + B) (by omega)
      rw [hempty]
      simp only [List.getLast?_singleton, Option.some.injEq]
      rw [innerRows_eq_min]
      -- the final partial batch holds N % B rows
      rcases hdvd with ⟨k, hk⟩
      have hmod : N % B = (N - i) % B := by
        conv_lhs => rw [show N = (N - i) + B * k by omega]
        rw [Nat.add_mul_mod_self_left]
      have hlt : N - i < B := by
        rcases Nat.lt_or_ge (N - i) B with h1 | h1
        · exact h1
        · exfalso
          have : N - i = B := by omega
          apply hND
          rw [show N = B + B * k by omega]
          exact Dvd.dvd.add dvd_rfl (dvd_mul_right B k)
      rw [hmod, Nat.mod_eq_of_lt hlt]
      omega

/-! ## Calendar model (`dim_date` seeding, `src/setup_db_olap.ts` lines 109-147)

The JS code iterates `Date` objects from 2022-01-01 to 2024-12-31 inclusive
(UTC midnights, `setDate(getDate() + 1)`), and per row derives year,
quarter, month, day, `getDay()` (0 = Sunday .. 6 = Saturday) and the
weekend flag `dow === 0 || dow === 6`. -/

structure CalDate where
  year : ℕ
  month : ℕ
  day : ℕ
deriving DecidableEq, Repr

/-- Gregorian leap-year rule (as implemented by JS `Date`). -/
def isLeap (y : ℕ) : Bool := (y % 4 == 0 && y % 100 != 0) || y % 400 == 0

def daysInMonth (y m : ℕ) : ℕ :=
  if m = 2 then (if isLeap y then 29 else 28)
  else if m = 4 ∨ m = 6 ∨ m = 9 ∨ m = 11 then 30
  else 31

/-- JS `d.setDate(d.getDate() + 1)`: advance one calendar day with
month/year rollover. -/
def nextDay (d : CalDate) : CalDate :=
  if d.day < daysInMonth d.year d.month then ⟨d.year, d.month, d.day + 1⟩
  else if d.month < 12 then ⟨d.year, d.month + 1, 1⟩
  else ⟨d.year + 1, 1, 1⟩

/-- Timestamp comparison `d <= endDate` for UTC-midnight dates: lexicographic
on (year, month, day). -/
def dateLE (a b : CalDate) : Bool :=
  a.year < b.year ||
    (a.year == b.year &&
      (a.month < b.month || (a.month == b.month && a.day ≤ b.day)))

/-- The date-collection loop `for (let d = new Date(startDate); d <= endDate;
d.setDate(d.getDate() + 1)) dates.push(new Date(d))`. -/
def datesBetween : ℕ → CalDate → CalDate → List CalDate
  | 0, _, _ => []
  | fuel + 1, d, e => if dateLE d e then d :: datesBetween fuel (nextDay d) e else []

/-- The `dates` array: every calendar day from 2022-01-01 to 2024-12-31. -/
def datesList : List CalDate := datesBetween 1200 ⟨2022, 1, 1⟩ ⟨2024, 12, 31⟩

/-- `const totalDates = dates.length`. -/
def totalDates : ℕ := datesList.length

/-- Day count of a proleptic-Gregorian civil date (days since 0000-03-01). -/
def daysFromCivil (dt : CalDate) : ℕ :=
  let y := if dt.month ≤ 2 then dt.year - 1 else dt.year
  let era := y / 400
  let yoe := y % 400
  let mp := (dt.month + 9) % 12
  let doy := (153 * mp + 2) / 5 + dt.day - 1
  let doe := yoe * 365 + yoe / 4 - yoe / 100 + doy
  era * 146097 + doe

/-- JS `Date#getDay()`: 0 = Sunday .. 6 = Saturday, anchored so that
1970-01-01 (day number 719468) is a Thursday (4); 719468 % 7 = 1, so the
anchor offset is 3. -/
def jsDay (dt : CalDate) : ℕ := (daysFromCivil dt + 3) % 7

theorem jsDay_epoch : jsDay ⟨1970, 1, 1⟩ = 4 := by decide

theorem jsDay_start : jsDay ⟨2022, 1, 1⟩ = 6 := by decide

/-- One `dim_date` row as built by the seeding loop. -/
structure DimDateRow where
  full_date : CalDate
  year : ℕ
  quarter : ℕ
  month : ℕ
  day : ℕ
  day_of_week : ℕ
  is_weekend : Bool
deriving DecidableEq, Repr

/-- Row construction from `src/setup_db_olap.ts` lines 129-138:
`getFullYear`, `Math.floor(getMonth()/3)+1`, `getMonth()+1`, `getDate`,
`getDay`, `dow === 0 || dow === 6` (with `getMonth` 0-based). -/
def genDateRow (dt : CalDate) : DimDateRow :=
  let dow := jsDay dt
  { full_date := dt
    year := dt.year
    quarter := (dt.month - 1) / 3 + 1
    month := dt.month
    day := dt.day
    day_of_week := dow
    is_weekend := dow == 0 || dow == 6 }

/-- All generated `dim_date` rows. -/
def dimDateRows : List DimDateRow := datesList.map genDateRow

set_option maxRecDepth 20000 in
theorem datesList_length : datesList.length = 1096 := by decide

/-! ## Configuration constants (both seeders) -/

def BATCH_SIZE : ℕ := 1000
def usersCount : ℕ := 1000000
def productsCount : ℕ := 200
def ordersCount : ℕ := 2000000
def orderItemsCount : ℕ := 5000000
def regionsCount : ℕ := 500
def customersCount : ℕ := 500000
def dimProductsCount : ℕ := 1000
def salesCount : ℕ := 10000000

def statuses : List String := ["pending", "shipped", "delivered", "cancelled"]
def segments : List String := ["Consumer", "Corporate", "Enterprise", "Government"]
def categories : List String := ["Electronics", "Clothing", "Home", "Sports", "Food"]

/-- The per-category subcategory record (`src/setup_db_olap.ts` lines 100-106);
a key absent from the record maps to the empty list (JS `undefined`). -/
def subcategories (c : String) : List String :=
  if c = "Electronics" then ["Phones", "Laptops", "Tablets", "Accessories"]
  else if c = "Clothing" then ["Shirts", "Pants", "Shoes", "Outerwear"]
  else if c = "Home" then ["Furniture", "Kitchen", "Decor", "Lighting"]
  else if c = "Sports" then ["Equipment", "Apparel", "Footwear", "Accessories"]
  else if c = "Food" then ["Snacks", "Beverages", "Dairy", "Produce"]
  else []

def brands : List String := ["BrandA", "BrandB", "BrandC", "BrandD", "BrandE"]

/-! ## Email synthesis

The template literals `` `user${i + j}_${faker.internet.email()}` `` and
`` `cust${i + j}_${faker.internet.email()}` `` render the row's sequential
index in decimal and splice an arbitrary faker-supplied string after an
underscore. `decRepr` is the decimal rendering (most significant digit
first). -/

def decRepr (n : ℕ) : List Char :=
  if n = 0 then ['0'] else (Nat.digits 10 n).reverse.map Nat.digitChar

def mkEmail (tag : String) (i : ℕ) (s : String) : String :=
  tag ++ ⟨decRepr i⟩ ++ "_" ++ s

/-! ## Row generators

Each structure of draws carries one universally quantified value per call
into the pseudo-random source made by the corresponding row construction. -/

structure UserDraws where
  emailDraw : String
  nameDraw : String

structure UserRow where
  email : String
  name : String

/-- One `users` row (`src/setup_db_oltp.ts` line 88). -/
def genUser (i : ℕ) (d : UserDraws) : UserRow :=
  { email := mkEmail "user" i d.emailDraw, name := d.nameDraw }

def genUsersTable (ds : ℕ → UserDraws) : List UserRow :=
  (List.range usersCount).map (fun k => genUser k (ds k))

structure ProductDraws where
  nameDraw : String
  priceDraw : ℚ
  stockDraw : ℕ

structure ProductRow where
  name : String
  price : ℚ
  stock : ℕ

/-- One `products` row (`src/setup_db_oltp.ts` lines 104-108). -/
def genProduct (d : ProductDraws) : ProductRow :=
  { name := d.nameDraw, price := d.priceDraw, stock := fakerInt 1 100 d.stockDraw }

def genProductsTable (ds : ℕ → ProductDraws) : List ProductRow :=
  (List.range productsCount).map (fun k => genProduct (ds k))

structure OrderDraws where
  userDraw : ℕ
  priceDraw : ℚ
  statusDraw : ℕ

structure OrderRow where
  user_id : ℕ
  total_price : ℚ
  status : String

/-- One `orders` row (`src/setup_db_oltp.ts` lines 124-128):
`user_id = faker.number.int({min: 1, max: 1000000})`. -/
def genOrder (d : OrderDraws) : OrderRow :=
  { user_id := fakerInt 1 usersCount d.userDraw
    total_price := d.priceDraw
    status := statuses.getD (fakerInt 0 3 d.statusDraw) "" }

def genOrdersTable (ds : ℕ → OrderDraws) : List OrderRow :=
  (List.range ordersCount).map (fun k => genOrder (ds k))

structure OrderItemDraws where
  orderDraw : ℕ
  productDraw : ℕ
  quantityDraw : ℕ

structure OrderItemRow where
  order_id : ℕ
  product_id : ℕ
  quantity : ℕ

/-- One `order_items` row (`src/setup_db_oltp.ts` lines 144-148). -/
def genOrderItem (d : OrderItemDraws) : OrderItemRow :=
  { order_id := fakerInt 1 ordersCount d.orderDraw
    product_id := fakerInt 1 productsCount d.productDraw
    quantity := fakerInt 1 10 d.quantityDraw }

def genOrderItemsTable (ds : ℕ → OrderItemDraws) : List OrderItemRow :=
  (List.range orderItemsCount).map (fun k => genOrderItem (ds k))

structure RegionDraws where
  countryDraw : String
  stateDraw : String
  cityDraw : String

structure RegionRow where
  country : String
  state : String
  city : String

/-- One `dim_region` row (`src/setup_db_olap.ts` lines 159-163). -/
def genRegion (d : RegionDraws) : RegionRow :=
  { country := d.countryDraw, state := d.stateDraw, city := d.cityDraw }

def genRegionsTable (ds : ℕ → RegionDraws) : List RegionRow :=
  (List.range regionsCount).map (fun k => genRegion (ds k))

structure CustomerDraws where
  nameDraw : String
  emailDraw : String
  segmentDraw : ℕ
  regionDraw : ℕ

structure CustomerRow where
  name : String
  email : String
  segment : String
  region_id : ℕ

/-- One `dim_customer` row (`src/setup_db_olap.ts` lines 181-186). -/
def genCustomer (i : ℕ) (d : CustomerDraws) : CustomerRow :=
  { name := d.nameDraw
    email := mkEmail "cust" i d.emailDraw
    segment := segments.getD (fakerInt 0 3 d.segmentDraw) ""
    region_id := fakerInt 1 regionsCount d.regionDraw }

def genCustomersTable (ds : ℕ → CustomerDraws) : List CustomerRow :=
  (List.range customersCount).map (fun k => genCustomer k (ds k))

structure DimProductDraws where
  nameDraw : String
  catDraw : ℕ
  subDraw : ℕ
  brandDraw : ℕ
  priceDraw : ℚ

structure DimProductRow where
  name : String
  category : String
  subcategory : String
  brand : String
  unit_cost : ℚ

/-- One `dim_product` row (`src/setup_db_olap.ts` lines 206-214):
`cat = categories[int(0..4)]`, `subs = subcategories[cat]`,
`sub = subs[int(0 .. subs.length - 1)]`. -/
def genDimProduct (d : DimProductDraws) : DimProductRow :=
  let cat := categories.getD (fakerInt 0 4 d.catDraw) ""
  let subs := subcategories cat
  { name := d.nameDraw
    category := cat
    subcategory := subs.getD (fakerInt 0 (subs.length - 1) d.subDraw) ""
    brand := brands.getD (fakerInt 0 4 d.brandDraw) ""
    unit_cost := d.priceDraw }

def genDimProductsTable (ds : ℕ → DimProductDraws) : List DimProductRow :=
  (List.range dimProductsCount).map (fun k => genDimProduct (ds k))

structure FactDraws where
  dateDraw : ℕ
  customerDraw : ℕ
  productDraw : ℕ
  regionDraw : ℕ
  qtyDraw : ℕ
  priceDraw : ℚ
  randDraw : ℚ

structure FactRow where
  date_id : ℕ
  customer_id : ℕ
  product_id : ℕ
  region_id : ℕ
  quantity : ℕ
  unit_price : ℚ
  discount : ℚ
  total_amount : ℚ

/-- One `fact_sales` row (`src/setup_db_olap.ts` lines 234-247):
`qty = int(1..20)`, `unitPrice = parseFloat(faker.commerce.price(...))`,
`discount = parseFloat((Math.random() * 0.3).toFixed(2))`,
`total = parseFloat((qty * unitPrice * (1 - discount)).toFixed(2))`. -/
def genFact (d : FactDraws) : FactRow :=
  let qty := fakerInt 1 20 d.qtyDraw
  let unitPrice := d.priceDraw
  let discount := round2 (d.randDraw * (3 / 10))
  let total := round2 (qty * unitPrice * (1 - discount))
  { date_id := fakerInt 1 totalDates d.dateDraw
    customer_id := fakerInt 1 customersCount d.customerDraw
    product_id := fakerInt 1 dimProductsCount d.productDraw
    region_id := fakerInt 1 regionsCount d.regionDraw
    quantity := qty
    unit_price := unitPrice
    discount := discount
    total_amount := total }

def genFactTable (ds : ℕ → FactDraws) : List FactRow :=
  (List.range salesCount).map (fun k => genFact (ds k))

/-! ## Decimal rendering facts (email uniqueness) -/

theorem digitChar_ne_underscore : ∀ d, d < 10 → Nat.digitChar d ≠ '_' := by decide

theorem digitChar_inj_lt : ∀ d₁, d₁ < 10 → ∀ d₂, d₂ < 10 →
    Nat.digitChar d₁ = Nat.digitChar d₂ → d₁ = d₂ := by decide

theorem decRepr_no_underscore (n : ℕ) : ∀ c ∈ decRepr n, c ≠ '_' := by
  intro c hc
  unfold decRepr at hc
  by_cases h : n = 0
  · rw [if_pos h] at hc
    simp only [List.mem_singleton] at hc
    subst hc; decide
  · rw [if_neg h] at hc
    simp only [List.mem_map, List.mem_reverse] at hc
    obtain ⟨d, hd, rfl⟩ := hc
    exact digitChar_ne_underscore d (Nat.digits_lt_base (by norm_num) hd)

theorem map_digitChar_inj : ∀ (l₁ l₂ : List ℕ), (∀ d ∈ l₁, d < 10) → (∀ d ∈ l₂, d < 10) →
    l₁.map Nat.digitChar = l₂.map Nat.digitChar → l₁ = l₂ := by
  intro l₁
  induction l₁ with
  | nil =>
    intro l₂ _ _ h
    cases l₂ with
    | nil => rfl
    | cons b bs => simp at h
  | cons a as ih =>
    intro l₂ h₁ h₂ h
    cases l₂ with
    | nil => simp at h
    | cons b bs =>
      simp only [List.map_cons, List.cons.injEq] at h
      have ha : a = b := digitChar_inj_lt a (h₁ a (List.mem_cons_self a as)) b
        (h₂ b (List.mem_cons_self b bs)) h.1
      have hr : as = bs := ih bs (fun d hd => h₁ d (List.mem_cons_of_mem a hd))
        (fun d hd => h₂ d (List.mem_cons_of_mem b hd)) h.2
      rw [ha, hr]

theorem decRepr_ne_single_zero (b : ℕ) (hb : b ≠ 0) :
    (Nat.digits 10 b).reverse.map Nat.digitChar ≠ ['0'] := by
  intro h
  have hlen : (Nat.digits 10 b).length = 1 := by
    have hl := congrArg List.length h
    simpa using hl
  rcases hdig : Nat.digits 10 b with _ | ⟨d, ds⟩
  · rw [hdig] at hlen; simp at hlen
  · rcases ds with _ | ⟨d', ds'⟩
    · rw [hdig] at h
      simp only [List.reverse_singleton, List.map_cons, List.map_nil,
        List.cons.injEq, and_true] at h
      have hd10 : d < 10 := Nat.digits_lt_base (by norm_num)
        (by rw [hdig]; exact List.mem_singleton_self d)
      have hd0 : d = 0 :=
        (digitChar_inj_lt 0 (by norm_num) d hd10 (show Nat.digitChar 0 = Nat.digitChar d from h.symm)).symm
      have hof := Nat.ofDigits_digits 10 b
      rw [hdig, hd0] at hof
      simp [Nat.ofDigits] at hof
      exact hb hof.symm
    · rw [hdig] at hlen; simp at hlen

theorem decRepr_inj (a b : ℕ) (h : decRepr a = decRepr b) : a = b := by
  unfold decRepr at h
  by_cases ha : a = 0 <;> by_cases hb : b = 0
  · omega
  · exfalso
    rw [if_pos ha, if_neg hb] at h
    exact decRepr_ne_single_zero b hb h.symm
  · exfalso
    rw [if_neg ha, if_pos hb] at h
    exact decRepr_ne_single_zero a ha h
  · rw [if_neg ha, if_neg hb] at h
    have hrev : (Nat.digits 10 a).reverse = (Nat.digits 10 b).reverse :=
      map_digitChar_inj _ _
        (fun d hd => Nat.digits_lt_base (by norm_num) (List.mem_reverse.mp hd))
        (fun d hd => Nat.digits_lt_base (by norm_num) (List.mem_reverse.mp hd)) h
    have hdig : Nat.digits 10 a = Nat.digits 10 b := List.reverse_inj.mp hrev
    exact Nat.digits_inj_iff.mp hdig

theorem append_underscore_inj :
    ∀ (a : List Char) (b : List Char) (s t : List Char),
      (∀ c ∈ a, c ≠ '_') → (∀ c ∈ b, c ≠ '_') →
      a ++ '_' :: s = b ++ '_' :: t → a = b := by
  intro a
  induction a with
  | nil =>
    intro b s t _ hb h
    cases b with
    | nil => rfl
    | cons c bs =>
      exfalso
      simp only [List.nil_append, List.cons_append, List.cons.injEq] at h
      exact hb c (List.mem_cons_self c bs) h.1.symm
  | cons c as ih =>
    intro b s t ha hb h
    cases b with
    | nil =>
      exfalso
      simp only [List.cons_append, List.nil_append, List.cons.injEq] at h
      exact ha c (List.mem_cons_self c as) h.1
    | cons c' bs =>
      simp only [List.cons_append, List.cons.injEq] at h
      have := ih bs s t (fun x hx => ha x (List.mem_cons_of_mem c hx))
        (fun x hx => hb x (List.mem_cons_of_mem c' hx)) h.2
      rw [h.1, this]

theorem mkEmail_inj (tag : String) (i j : ℕ) (s t : String)
    (h : mkEmail tag i s = mkEmail tag j t) : i = j := by
  unfold mkEmail at h
  have hdata := congrArg String.data h
  simp only [String.data_append, List.append_assoc, List.singleton_append] at hdata
  have hcut := List.append_cancel_left hdata
  exact decRepr_inj i j
    (append_underscore_inj _ _ _ _ (decRepr_no_underscore i) (decRepr_no_underscore j) hcut)

/-! ## Insert traces and the sequential run

Each `await client.query("INSERT ...")` of the seeding function is one
event; a table's events are one per batch of its loop, in loop order
(the single `products` insert of the OLTP seeder is one event). The
events of `seed` happen in source order, giving one flat list. -/

inductive OltpTable
  | users
  | products
  | orders
  | orderItems
deriving DecidableEq, Repr

inductive OlapTable
  | dimDate
  | dimRegion
  | dimCustomer
  | dimProduct
  | factSales
deriving DecidableEq, Repr

/-- Position of a table in its seeder's source order. -/
def phaseOltp : OltpTable → ℕ
  | .users => 0
  | .products => 1
  | .orders => 2
  | .orderItems => 3

def phaseOlap : OlapTable → ℕ
  | .dimDate => 0
  | .dimRegion => 1
  | .dimCustomer => 2
  | .dimProduct => 3
  | .factSales => 4

/-- The insert events of one table: one `(table, batch row count)` pair per
bulk insert. -/
def seg {τ : Type} (t : τ) (l : List ℕ) : List (τ × ℕ) :=
  l.map (fun s => (t, s))

/-- Insert events of `seed` in `src/setup_db_oltp.ts`, in source order. -/
def oltpTrace : List (OltpTable × ℕ) :=
  seg .users (batchSizes usersCount BATCH_SIZE)
    ++ seg .products [productsCount]
    ++ seg .orders (batchSizes ordersCount BATCH_SIZE)
    ++ seg .orderItems (batchSizes orderItemsCount BATCH_SIZE)

/-- Insert events of `seed` in `src/setup_db_olap.ts`, in source order. -/
def olapTrace : List (OlapTable × ℕ) :=
  seg .dimDate (batchSizes totalDates BATCH_SIZE)
    ++ seg .dimRegion (batchSizes regionsCount BATCH_SIZE)
    ++ seg .dimCustomer (batchSizes customersCount BATCH_SIZE)
    ++ seg .dimProduct (batchSizes dimProductsCount BATCH_SIZE)
    ++ seg .factSales (batchSizes salesCount BATCH_SIZE)

/-- The store's verdict per event index: `store k = false` means the `k`-th
bulk insert rejects (the awaited promise throws). `runIssued` is the list
of inserts actually issued: the exception aborts the sequential run, so a
failed insert is the last one issued. -/
def runIssued {α : Type} (store : ℕ → Bool) : List α → ℕ → List α
  | [], _ => []
  | e :: es, k => if store k then e :: runIssued store es (k + 1) else [e]

/-- Whether the run reaches the final `console.log("Done! ...")`:
`false` as soon as one awaited insert throws. -/
def runOk {α : Type} (store : ℕ → Bool) : List α → ℕ → Bool
  | [], _ => true
  | e :: es, k => if store k then runOk store es (k + 1) else false

/-! ## The seeding loop with the target as a parameter

The loop `for (let i = 0; i < target; i += BATCH_SIZE)` compares a JS
number; a (hypothetical) negative target is representable only with an
integer-typed target. `batchSizesInt` is `batchSizes` with `ℤ` target,
used to study invalid configurations. -/

def innerRowsInt (N : ℤ) : ℤ → ℕ → ℕ
  | _, 0 => 0
  | c, b + 1 => if c < N then innerRowsInt N (c + 1) b + 1 else 0

def outerBatchesInt (N : ℤ) (B : ℕ) : ℕ → ℤ → List ℕ
  | 0, _ => []
  | fuel + 1, i => if i < N then innerRowsInt N i B :: outerBatchesInt N B fuel (i + B) else []

def batchSizesInt (N : ℤ) (B : ℕ) : List ℕ := outerBatchesInt N B (N.toNat + 1) 0

/-- Insert events of a single-table seeding pass with integer target `N`. -/
def intTrace (N : ℤ) : List (OltpTable × ℕ) :=
  seg .users (batchSizesInt N BATCH_SIZE)

/-! ## Database lifecycle (`manageDatabase`, both files, lines 9-30)

`client.connect()` precedes the `try` block and is modelled as succeeding;
the claims under study concern the `DROP DATABASE` / `CREATE DATABASE`
statements, which are inside `try { ... } catch (err) { console.error }`. -/

inductive QueryResult
  | ok
  | failed
deriving DecidableEq, Repr

/-- The `try` block: drop, log, create, log. A failure is an `Except.error`
carrying the log lines emitted before the throw. -/
def lifecycleBody : QueryResult → QueryResult → Except (List String) (List String)
  | .failed, _ => .error []
  | .ok, .failed => .error ["Database dropped."]
  | .ok, .ok => .ok ["Database dropped.", "Database created."]

structure LifecycleRun where
  logs : List String
  thrown : Bool
deriving DecidableEq, Repr

/-- `manageDatabase`: the catch handler logs the error and swallows it, so
no exception escapes (`thrown := false` on the catch path as on the normal
path). -/
def manageDatabase (dropQ createQ : QueryResult) : LifecycleRun :=
  match lifecycleBody dropQ createQ with
  | .ok logs => ⟨logs, false⟩
  | .error logs => ⟨logs ++ ["Error:"], false⟩

/-- `setupOltp`: `await manageDatabase(); await seed();` — `seed` runs only
if `manageDatabase` did not throw. -/
def setupOltp (dropQ createQ : QueryResult) (store : ℕ → Bool) :
    Option (List (OltpTable × ℕ) × Bool) :=
  if (manageDatabase dropQ createQ).thrown then none
  else some (runIssued store oltpTrace 0, runOk store oltpTrace 0)

/-- `setupOlap`: same composition against the OLAP seeder. -/
def setupOlap (dropQ createQ : QueryResult) (store : ℕ → Bool) :
    Option (List (OlapTable × ℕ) × Bool) :=
  if (manageDatabase dropQ createQ).thrown then none
  else some (runIssued store olapTrace 0, runOk store olapTrace 0)

/-! ## Batch-level facts -/

theorem le_mul_self_of_pos (N B : ℕ) (hB : 0 < B) : N ≤ 0 + N * B := by
  have h1 : N * 1 ≤ N * B := Nat.mul_le_mul_left N hB
  omega

theorem batchSizes_length (N B : ℕ) (hB : 0 < B) :
    (batchSizes N B).length = (N + B - 1) / B := by
  have h := outerBatches_length N B hB N 0 (le_mul_self_of_pos N B hB)
  simpa [batchSizes] using h

theorem batchSizes_sum (N B : ℕ) (hB : 0 < B) : (batchSizes N B).sum = N := by
  have h := outerBatches_sum N B hB N 0 (le_mul_self_of_pos N B hB)
  simpa [batchSizes] using h

theorem batchSizes_mem (N B : ℕ) (hB : 0 < B) :
    ∀ s ∈ batchSizes N B, 0 < s ∧ s ≤ B :=
  outerBatches_mem N B hB N 0

theorem batchSizes_mem_of_dvd (N B : ℕ) (hB : 0 < B) (hD : B ∣ N) :
    ∀ s ∈ batchSizes N B, s = B :=
  outerBatches_mem_of_dvd N B hB hD N 0 (dvd_zero B)

theorem batchSizes_getLast? (N B : ℕ) (hB : 0 < B) (hND : ¬ B ∣ N) :
    (batchSizes N B).getLast? = some (N % B) := by
  have hN0 : N ≠ 0 := by
    intro h; exact hND (h ▸ dvd_zero B)
  exact outerBatches_getLast? N B hB hND N 0 (le_mul_self_of_pos N B hB)
    (Nat.pos_of_ne_zero hN0) (dvd_zero B)

/-! ## Segment facts -/

theorem seg_fst {τ : Type} (t : τ) (l : List ℕ) :
    ∀ x ∈ seg t l, x.1 = t := by
  intro x hx
  simp only [seg, List.mem_map] at hx
  obtain ⟨s, _, rfl⟩ := hx
  rfl

theorem seg_length {τ : Type} (t : τ) (l : List ℕ) : (seg t l).length = l.length :=
  List.length_map l _

theorem seg_getD_fst {τ : Type} (t : τ) (l : List ℕ) (d : τ × ℕ) (k : ℕ)
    (hk : k < l.length) : ((seg t l).getD k d).1 = t := by
  have hk' : k < (seg t l).length := by rw [seg_length]; exact hk
  rw [List.getD_eq_get _ _ hk']
  exact seg_fst t l _ (List.get_mem _ _ hk')

theorem pairwise_of_all {α : Type} {R : α → α → Prop} (h : ∀ a b, R a b) :
    ∀ l : List α, l.Pairwise R := by
  intro l
  induction l with
  | nil => exact List.Pairwise.nil
  | cons a as ih => exact List.Pairwise.cons (fun b _ => h a b) ih

theorem pairwise_append_of {α : Type} {R : α → α → Prop} (l₁ l₂ : List α)
    (h₁ : l₁.Pairwise R) (h₂ : l₂.Pairwise R)
    (h : ∀ a ∈ l₁, ∀ b ∈ l₂, R a b) : (l₁ ++ l₂).Pairwise R :=
  List.pairwise_append.mpr ⟨h₁, h₂, h⟩

theorem pairwise_getD_mono {α : Type} (φ : α → ℕ) (l : List α) (d : α)
    (hp : l.Pairwise (fun a b => φ a ≤ φ b)) (i j : ℕ) (hij : i ≤ j)
    (hj : j < l.length) : φ (l.getD i d) ≤ φ (l.getD j d) := by
  have hi : i < l.length := Nat.lt_of_le_of_lt hij hj
  rw [List.getD_eq_get _ _ hi, List.getD_eq_get _ _ hj]
  rcases Nat.eq_or_lt_of_le hij with rfl | hlt
  · exact le_refl _
  · exact List.pairwise_iff_get.mp hp ⟨i, hi⟩ ⟨j, hj⟩ hlt

/-! ## Run facts -/

theorem run_fail {α : Type} (store : ℕ → Bool) :
    ∀ (l : List α) (k j : ℕ), store (j + k) = false →
      (∀ m, m < k → store (j + m) = true) → k < l.length →
      runOk store l j = false ∧ runIssued store l j = l.take (k + 1) := by
  intro l
  induction l with
  | nil => intro k j _ _ hk; simp at hk
  | cons e es ih =>
    intro k j hf hs hk
    cases k with
    | zero =>
      rw [Nat.add_zero] at hf
      refine ⟨by simp [runOk, hf], by simp [runIssued, hf]⟩
    | succ k =>
      have h0 : store j = true := by
        have := hs 0 (Nat.succ_pos k)
        simpa using this
      have hf' : store (j + 1 + k) = false := by
        rw [show j + 1 + k = j + (k + 1) by omega]; exact hf
      have hs' : ∀ m, m < k → store (j + 1 + m) = true := by
        intro m hm
        have := hs (m + 1) (by omega)
        rw [show j + (m + 1) = j + 1 + m by omega] at this
        exact this
      have hk' : k < es.length := by
        simp only [List.length_cons] at hk; omega
      obtain ⟨ho, hi⟩ := ih k (j + 1) hf' hs' hk'
      refine ⟨by simp [runOk, h0, ho], ?_⟩
      simp only [runIssued, h0, if_true, hi]
      rfl

theorem runOk_all_true {α : Type} :
    ∀ (l : List α) (j : ℕ), runOk (fun _ => true) l j = true := by
  intro l
  induction l with
  | nil => intro j; rfl
  | cons e es ih => intro j; simp [runOk, ih]

/-! ## Trace-level facts -/

theorem usersBatches_length : (batchSizes usersCount BATCH_SIZE).length = 1000 := by
  rw [batchSizes_length _ _ (by norm_num [BATCH_SIZE])]
  norm_num [usersCount, BATCH_SIZE]

theorem ordersBatches_length : (batchSizes ordersCount BATCH_SIZE).length = 2000 := by
  rw [batchSizes_length _ _ (by norm_num [BATCH_SIZE])]
  norm_num [ordersCount, BATCH_SIZE]

theorem itemsBatches_length : (batchSizes orderItemsCount BATCH_SIZE).length = 5000 := by
  rw [batchSizes_length _ _ (by norm_num [BATCH_SIZE])]
  norm_num [orderItemsCount, BATCH_SIZE]

theorem totalDates_eq : totalDates = 1096 := datesList_length

theorem datesBatches_length : (batchSizes totalDates BATCH_SIZE).length = 2 := by
  rw [totalDates_eq, batchSizes_length _ _ (by norm_num [BATCH_SIZE])]
  norm_num [BATCH_SIZE]

theorem regionsBatches_length : (batchSizes regionsCount BATCH_SIZE).length = 1 := by
  rw [batchSizes_length _ _ (by norm_num [BATCH_SIZE])]
  norm_num [regionsCount, BATCH_SIZE]

theorem customersBatches_length : (batchSizes customersCount BATCH_SIZE).length = 500 := by
  rw [batchSizes_length _ _ (by norm_num [BATCH_SIZE])]
  norm_num [customersCount, BATCH_SIZE]

theorem dimProductsBatches_length : (batchSizes dimProductsCount BATCH_SIZE).length = 1 := by
  rw [batchSizes_length _ _ (by norm_num [BATCH_SIZE])]
  norm_num [dimProductsCount, BATCH_SIZE]

theorem salesBatches_length : (batchSizes salesCount BATCH_SIZE).length = 10000 := by
  rw [batchSizes_length _ _ (by norm_num [BATCH_SIZE])]
  norm_num [salesCount, BATCH_SIZE]

theorem oltpTrace_length : oltpTrace.length = 8001 := by
  simp only [oltpTrace, List.length_append, seg_length, List.length_singleton,
    usersBatches_length, ordersBatches_length, itemsBatches_length]

theorem olapTrace_length : olapTrace.length = 10504 := by
  simp only [olapTrace, List.length_append, seg_length, datesBatches_length,
    regionsBatches_length, customersBatches_length, dimProductsBatches_length,
    salesBatches_length]

theorem seg_pairwise {τ : Type} (φ : τ → ℕ) (t : τ) (l : List ℕ) :
    (seg t l).Pairwise (fun a b => φ a.1 ≤ φ b.1) := by
  unfold seg
  rw [List.pairwise_map]
  exact pairwise_of_all (fun a b => le_refl _) l

theorem seg_cross {τ : Type} (φ : τ → ℕ) {t₁ t₂ : τ} (h : φ t₁ ≤ φ t₂)
    (l₁ l₂ : List ℕ) :
    ∀ a ∈ seg t₁ l₁, ∀ b ∈ seg t₂ l₂, φ a.1 ≤ φ b.1 := by
  intro a ha b hb
  rw [seg_fst t₁ l₁ a ha, seg_fst t₂ l₂ b hb]
  exact h

theorem oltpTrace_pairwise :
    oltpTrace.Pairwise (fun a b => phaseOltp a.1 ≤ phaseOltp b.1) := by
  unfold oltpTrace
  refine pairwise_append_of _ _ ?_ (seg_pairwise _ _ _) ?_
  · refine pairwise_append_of _ _ ?_ (seg_pairwise _ _ _) ?_
    · refine pairwise_append_of _ _ (seg_pairwise _ _ _) (seg_pairwise _ _ _) ?_
      · exact seg_cross _ (by decide) _ _
    · intro a ha b hb
      rcases List.mem_append.mp ha with ha | ha
      · rw [seg_fst _ _ a ha, seg_fst _ _ b hb]; decide
      · rw [seg_fst _ _ a ha, seg_fst _ _ b hb]; decide
  · intro a ha b hb
    rcases List.mem_append.mp ha with ha | ha
    · rcases List.mem_append.mp ha with ha | ha
      · rw [seg_fst _ _ a ha, seg_fst _ _ b hb]; decide
      · rw [seg_fst _ _ a ha, seg_fst _ _ b hb]; decide
    · rw [seg_fst _ _ a ha, seg_fst _ _ b hb]; decide

theorem olapTrace_pairwise :
    olapTrace.Pairwise (fun a b => phaseOlap a.1 ≤ phaseOlap b.1) := by
  unfold olapTrace
  refine pairwise_append_of _ _ ?_ (seg_pairwise _ _ _) ?_
  · refine pairwise_append_of _ _ ?_ (seg_pairwise _ _ _) ?_
    · refine pairwise_append_of _ _ ?_ (seg_pairwise _ _ _) ?_
      · refine pairwise_append_of _ _ (seg_pairwise _ _ _) (seg_pairwise _ _ _) ?_
        · exact seg_cross _ (by decide) _ _
      · intro a ha b hb
        rcases List.mem_append.mp ha with ha | ha
        · rw [seg_fst _ _ a ha, seg_fst _ _ b hb]; decide
        · rw [seg_fst _ _ a ha, seg_fst _ _ b hb]; decide
    · intro a ha b hb
      rcases List.mem_append.mp ha with ha | ha
      · rcases List.mem_append.mp ha with ha | ha
        · rw [seg_fst _ _ a ha, seg_fst _ _ b hb]; decide
        · rw [seg_fst _ _ a ha, seg_fst _ _ b hb]; decide
      · rw [seg_fst _ _ a ha, seg_fst _ _ b hb]; decide
  · intro a ha b hb
    rcases List.mem_append.mp ha with ha | ha
    · rcases List.mem_append.mp ha with ha | ha
      · rcases List.mem_append.mp ha with ha | ha
        · rw [seg_fst _ _ a ha, seg_fst _ _ b hb]; decide
        · rw [seg_fst _ _ a ha, seg_fst _ _ b hb]; decide
      · rw [seg_fst _ _ a ha, seg_fst _ _ b hb]; decide
    · rw [seg_fst _ _ a ha, seg_fst _ _ b hb]; decide

theorem oltpTrace_mono (i j : ℕ) (hij : i ≤ j) (hj : j < oltpTrace.length) :
    phaseOltp (oltpTrace.getD i (OltpTable.users, 0)).1 ≤
      phaseOltp (oltpTrace.getD j (OltpTable.users, 0)).1 :=
  pairwise_getD_mono (fun x => phaseOltp x.1) _ _ oltpTrace_pairwise i j hij hj

set_option maxRecDepth 8000 in
theorem olapTrace_mono (i j : ℕ) (hij : i ≤ j) (hj : j < olapTrace.length) :
    phaseOlap (olapTrace.getD i (OlapTable.dimDate, 0)).1 ≤
      phaseOlap (olapTrace.getD j (OlapTable.dimDate, 0)).1 :=
  pairwise_getD_mono (fun x => phaseOlap x.1) _ _ olapTrace_pairwise i j hij hj

theorem oltpAB_length :
    (seg OltpTable.users (batchSizes usersCount BATCH_SIZE) ++
      seg OltpTable.products [productsCount]).length = 1001 := by
  simp only [List.length_append, seg_length, usersBatches_length, List.length_singleton]

theorem oltpABC_length :
    (seg OltpTable.users (batchSizes usersCount BATCH_SIZE) ++
      seg OltpTable.products [productsCount] ++
      seg OltpTable.orders (batchSizes ordersCount BATCH_SIZE)).length = 3001 := by
  simp only [List.length_append, seg_length, usersBatches_length,
    List.length_singleton, ordersBatches_length]

theorem oltpTrace_getD_zero : (oltpTrace.getD 0 (OltpTable.users, 0)).1 = OltpTable.users := by
  unfold oltpTrace
  rw [List.getD_append _ _ _ _ (by rw [oltpABC_length]; norm_num)]
  rw [List.getD_append _ _ _ _ (by rw [oltpAB_length]; norm_num)]
  rw [List.getD_append _ _ _ _ (by rw [seg_length, usersBatches_length]; norm_num)]
  exact seg_getD_fst _ _ _ _ (by rw [usersBatches_length]; norm_num)

theorem oltpTrace_getD_orders :
    (oltpTrace.getD 1001 (OltpTable.users, 0)).1 = OltpTable.orders := by
  unfold oltpTrace
  rw [List.getD_append _ _ _ _ (by rw [oltpABC_length]; norm_num)]
  rw [List.getD_append_right _ _ _ _ (by rw [oltpAB_length])]
  rw [oltpAB_length, Nat.sub_self]
  exact seg_getD_fst _ _ _ _ (by rw [ordersBatches_length]; norm_num)

theorem oltpTrace_getD_items :
    (oltpTrace.getD 3001 (OltpTable.users, 0)).1 = OltpTable.orderItems := by
  unfold oltpTrace
  rw [List.getD_append_right _ _ _ _ (by rw [oltpABC_length])]
  rw [oltpABC_length, Nat.sub_self]
  exact seg_getD_fst _ _ _ _ (by rw [itemsBatches_length]; norm_num)

theorem olapAB_length :
    (seg OlapTable.dimDate (batchSizes totalDates BATCH_SIZE) ++
      seg OlapTable.dimRegion (batchSizes regionsCount BATCH_SIZE)).length = 3 := by
  simp only [List.length_append, seg_length, datesBatches_length, regionsBatches_length]

theorem olapABC_length :
    (seg OlapTable.dimDate (batchSizes totalDates BATCH_SIZE) ++
      seg OlapTable.dimRegion (batchSizes regionsCount BATCH_SIZE) ++
      seg OlapTable.dimCustomer (batchSizes customersCount BATCH_SIZE)).length = 503 := by
  simp only [List.length_append, seg_length, datesBatches_length,
    regionsBatches_length, customersBatches_length]

theorem olapABCE_length :
    (seg OlapTable.dimDate (batchSizes totalDates BATCH_SIZE) ++
      seg OlapTable.dimRegion (batchSizes regionsCount BATCH_SIZE) ++
      seg OlapTable.dimCustomer (batchSizes customersCount BATCH_SIZE) ++
      seg OlapTable.dimProduct (batchSizes dimProductsCount BATCH_SIZE)).length = 504 := by
  simp only [List.length_append, seg_length, datesBatches_length,
    regionsBatches_length, customersBatches_length, dimProductsBatches_length]

theorem olapTrace_getD_zero :
    (olapTrace.getD 0 (OlapTable.dimDate, 0)).1 = OlapTable.dimDate := by
  unfold olapTrace
  rw [List.getD_append _ _ _ _ (by rw [olapABCE_length]; norm_num)]
  rw [List.getD_append _ _ _ _ (by rw [olapABC_length]; norm_num)]
  rw [List.getD_append _ _ _ _ (by rw [olapAB_length]; norm_num)]
  rw [List.getD_append _ _ _ _ (by rw [seg_length, datesBatches_length]; norm_num)]
  exact seg_getD_fst _ _ _ _ (by rw [datesBatches_length]; norm_num)

theorem olapTrace_getD_fact :
    (olapTrace.getD 504 (OlapTable.dimDate, 0)).1 = OlapTable.factSales := by
  unfold olapTrace
  rw [List.getD_append_right _ _ _ _ (by rw [olapABCE_length])]
  rw [olapABCE_length, Nat.sub_self]
  exact seg_getD_fst _ _ _ _ (by rw [salesBatches_length]; norm_num)

/-! ## Small helpers for the claims -/

theorem getD_mem {α : Type} (l : List α) (k : ℕ) (d : α) (h : k < l.length) :
    l.getD k d ∈ l := by
  rw [List.getD_eq_get _ _ h]
  exact List.get_mem _ _ h

theorem subcategories_len_of_mem : ∀ c ∈ categories, (subcategories c).length = 4 := by
  decide

theorem phaseOltp_le_two (t : OltpTable) (h : t ≠ OltpTable.orderItems) :
    phaseOltp t ≤ 2 := by
  cases t with
  | users => decide
  | products => decide
  | orders => decide
  | orderItems => exact absurd rfl h

theorem phaseOlap_le_three (t : OlapTable) (h : t ≠ OlapTable.factSales) :
    phaseOlap t ≤ 3 := by
  cases t with
  | dimDate => decide
  | dimRegion => decide
  | dimCustomer => decide
  | dimProduct => decide
  | factSales => exact absurd rfl h

/-! Concrete draw functions used to witness the claims on sample inputs. -/

def cUserDraws : ℕ → UserDraws := fun _ => ⟨"x@y.z", "Name"⟩
def cProductDraws : ℕ → ProductDraws := fun _ => ⟨"P", 1, 0⟩
def cOrderDraws : ℕ → OrderDraws := fun _ => ⟨0, 1, 0⟩
def cItemDraws : ℕ → OrderItemDraws := fun _ => ⟨0, 0, 0⟩
def cRegionDraws : ℕ → RegionDraws := fun _ => ⟨"C", "S", "T"⟩
def cCustomerDraws : ℕ → CustomerDraws := fun _ => ⟨"N", "e@f.g", 0, 0⟩
def cDimProductDraws : ℕ → DimProductDraws := fun _ => ⟨"P", 0, 0, 0, 1⟩
def cFactDraws : ℕ → FactDraws := fun _ => ⟨0, 0, 0, 0, 0, 1, 0⟩

/-! ## The claims -/

/-- C1: every foreign key sampled for a dependent table lies within
`[1, N]`, where `N` is the generated row count of the referenced table
(`orders.user_id` vs `users`, `order_items.order_id`/`product_id` vs
`orders`/`products`, and the four `fact_sales` keys vs the four
dimensions), for every possible sequence of pseudo-random draws. -/
theorem fk_within_populated_range
    (uds : ℕ → UserDraws) (pds : ℕ → ProductDraws) (ods : ℕ → OrderDraws)
    (ids : ℕ → OrderItemDraws) (rds : ℕ → RegionDraws) (cds : ℕ → CustomerDraws)
    (dds : ℕ → DimProductDraws) (fds : ℕ → FactDraws) :
    (∀ r ∈ genOrdersTable ods,
        1 ≤ r.user_id ∧ r.user_id ≤ (genUsersTable uds).length) ∧
    (∀ r ∈ genOrderItemsTable ids,
        (1 ≤ r.order_id ∧ r.order_id ≤ (genOrdersTable ods).length) ∧
        (1 ≤ r.product_id ∧ r.product_id ≤ (genProductsTable pds).length)) ∧
    (∀ r ∈ genFactTable fds,
        (1 ≤ r.date_id ∧ r.date_id ≤ dimDateRows.length) ∧
        (1 ≤ r.customer_id ∧ r.customer_id ≤ (genCustomersTable cds).length) ∧
        (1 ≤ r.product_id ∧ r.product_id ≤ (genDimProductsTable dds).length) ∧
        (1 ≤ r.region_id ∧ r.region_id ≤ (genRegionsTable rds).length)) := by
  have hULen : (genUsersTable uds).length = usersCount := by
    simp [genUsersTable]
  have hOLen : (genOrdersTable ods).length = ordersCount := by
    simp [genOrdersTable]
  have hPLen : (genProductsTable pds).length = productsCount := by
    simp [genProductsTable]
  have hCLen : (genCustomersTable cds).length = customersCount := by
    simp [genCustomersTable]
  have hDLen : (genDimProductsTable dds).length = dimProductsCount := by
    simp [genDimProductsTable]
  have hRLen : (genRegionsTable rds).length = regionsCount := by
    simp [genRegionsTable]
  have hDateLen : dimDateRows.length = totalDates := by
    simp [dimDateRows, totalDates]
  refine ⟨?_, ?_, ?_⟩
  · intro r hr
    simp only [genOrdersTable, List.mem_map, List.mem_range] at hr
    obtain ⟨k, -, rfl⟩ := hr
    refine ⟨fakerInt_le_left _ _ _, ?_⟩
    rw [hULen]
    exact fakerInt_le_right _ _ _ (by norm_num [usersCount])
  · intro r hr
    simp only [genOrderItemsTable, List.mem_map, List.mem_range] at hr
    obtain ⟨k, -, rfl⟩ := hr
    refine ⟨⟨fakerInt_le_left _ _ _, ?_⟩, fakerInt_le_left _ _ _, ?_⟩
    · rw [hOLen]
      exact fakerInt_le_right _ _ _ (by norm_num [ordersCount])
    · rw [hPLen]
      exact fakerInt_le_right _ _ _ (by norm_num [productsCount])
  · intro r hr
    simp only [genFactTable, List.mem_map, List.mem_range] at hr
    obtain ⟨k, -, rfl⟩ := hr
    refine ⟨⟨fakerInt_le_left _ _ _, ?_⟩, ⟨fakerInt_le_left _ _ _, ?_⟩,
      ⟨fakerInt_le_left _ _ _, ?_⟩, fakerInt_le_left _ _ _, ?_⟩
    · rw [hDateLen]
      exact fakerInt_le_right _ _ _ (by rw [totalDates_eq]; norm_num)
    · rw [hCLen]
      exact fakerInt_le_right _ _ _ (by norm_num [customersCount])
    · rw [hDLen]
      exact fakerInt_le_right _ _ _ (by norm_num [dimProductsCount])
    · rw [hRLen]
      exact fakerInt_le_right _ _ _ (by norm_num [regionsCount])

/-- C1 witness: the theorem applied to concrete draw functions and the
first generated row of each dependent table. -/
theorem fk_within_populated_range_witness :
    (1 ≤ (genOrder (cOrderDraws 0)).user_id ∧
      (genOrder (cOrderDraws 0)).user_id ≤ (genUsersTable cUserDraws).length) ∧
    ((1 ≤ (genOrderItem (cItemDraws 0)).order_id ∧
      (genOrderItem (cItemDraws 0)).order_id ≤ (genOrdersTable cOrderDraws).length) ∧
      (1 ≤ (genOrderItem (cItemDraws 0)).product_id ∧
        (genOrderItem (cItemDraws 0)).product_id ≤ (genProductsTable cProductDraws).length)) ∧
    ((1 ≤ (genFact (cFactDraws 0)).date_id ∧
      (genFact (cFactDraws 0)).date_id ≤ dimDateRows.length) ∧
      (1 ≤ (genFact (cFactDraws 0)).customer_id ∧
        (genFact (cFactDraws 0)).customer_id ≤ (genCustomersTable cCustomerDraws).length) ∧
      (1 ≤ (genFact (cFactDraws 0)).product_id ∧
        (genFact (cFactDraws 0)).product_id ≤ (genDimProductsTable cDimProductDraws).length) ∧
      (1 ≤ (genFact (cFactDraws 0)).region_id ∧
        (genFact (cFactDraws 0)).region_id ≤ (genRegionsTable cRegionDraws).length)) := by
  obtain ⟨h1, h2, h3⟩ := fk_within_populated_range cUserDraws cProductDraws cOrderDraws
    cItemDraws cRegionDraws cCustomerDraws cDimProductDraws cFactDraws
  exact ⟨h1 _ (List.mem_map_of_mem _ (List.mem_range.mpr (by norm_num [ordersCount]))),
    h2 _ (List.mem_map_of_mem _ (List.mem_range.mpr (by norm_num [orderItemsCount]))),
    h3 _ (List.mem_map_of_mem _ (List.mem_range.mpr (by norm_num [salesCount])))⟩

/-- C2: each generated `fact_sales` row's `total_amount` equals
`round2(quantity * unit_price * (1 - discount))` computed from the same
row's stored fields, for every possible sequence of draws. -/
theorem total_amount_derived (fds : ℕ → FactDraws) :
    ∀ r ∈ genFactTable fds,
      r.total_amount = round2 ((r.quantity : ℚ) * r.unit_price * (1 - r.discount)) := by
  intro r hr
  simp only [genFactTable, List.mem_map, List.mem_range] at hr
  obtain ⟨k, -, rfl⟩ := hr
  rfl

/-- C2 witness: the formula checked on a concrete generated row. -/
theorem total_amount_derived_witness :
    (genFact (cFactDraws 0)).total_amount =
      round2 (((genFact (cFactDraws 0)).quantity : ℚ) *
        (genFact (cFactDraws 0)).unit_price * (1 - (genFact (cFactDraws 0)).discount)) :=
  total_amount_derived cFactDraws _
    (List.mem_map_of_mem _ (List.mem_range.mpr (by norm_num [salesCount])))

/-- C3: the generated `dim_date` table has one row per day of
2022-01-01..2024-12-31 (1096 rows); each row's `is_weekend` is true exactly
when its `day_of_week` is Sunday (0) or Saturday (6), and `day_of_week` is
the weekday of the row's own `full_date`. -/
theorem weekend_flag_consistent :
    dimDateRows.length = 1096 ∧
    ∀ row ∈ dimDateRows,
      (row.is_weekend = true ↔ (row.day_of_week = 0 ∨ row.day_of_week = 6)) ∧
      row.day_of_week = jsDay row.full_date ∧
      row.day_of_week < 7 := by
  constructor
  · rw [dimDateRows, List.length_map]
    exact datesList_length
  · intro row hrow
    simp only [dimDateRows, List.mem_map] at hrow
    obtain ⟨dt, -, rfl⟩ := hrow
    refine ⟨?_, rfl, ?_⟩
    · simp [genDateRow, Bool.or_eq_true, beq_iff_eq]
    · exact Nat.mod_lt _ (by norm_num)

/-- C3 witness: the weekend flag of the first generated date row
(2022-01-01, a Saturday). -/
theorem weekend_flag_consistent_witness :
    ((genDateRow ⟨2022, 1, 1⟩).is_weekend = true ↔
      ((genDateRow ⟨2022, 1, 1⟩).day_of_week = 0 ∨
        (genDateRow ⟨2022, 1, 1⟩).day_of_week = 6)) ∧
    (genDateRow ⟨2022, 1, 1⟩).day_of_week = jsDay (genDateRow ⟨2022, 1, 1⟩).full_date ∧
    (genDateRow ⟨2022, 1, 1⟩).day_of_week < 7 :=
  weekend_flag_consistent.2 _ (List.mem_map_of_mem _ (by decide))

set_option maxRecDepth 40000

/-- C4: for every target `N ≥ 0` and batch size `B > 0` the loop produces
exactly `⌈N/B⌉` batches of at most `B` rows each (all nonempty), totalling
exactly `N` rows, the final batch holding `N % B` rows when `B ∤ N`; in
particular target 200 with batch size 1000 gives one batch of 200 rows and
target 2,000,000 gives 2000 full batches. -/
theorem batching_partitions (N B : ℕ) (hB : 0 < B) :
    (batchSizes N B).length = (N + B - 1) / B ∧
    (∀ s ∈ batchSizes N B, 0 < s ∧ s ≤ B) ∧
    (batchSizes N B).sum = N ∧
    (¬ B ∣ N → (batchSizes N B).getLast? = some (N % B)) ∧
    batchSizes 200 1000 = [200] ∧
    (batchSizes 2000000 1000).length = 2000 ∧
    (∀ s ∈ batchSizes 2000000 1000, s = 1000) := by
  refine ⟨batchSizes_length N B hB, batchSizes_mem N B hB, batchSizes_sum N B hB,
    fun h => batchSizes_getLast? N B hB h, ?_, ?_, ?_⟩
  · decide
  · rw [batchSizes_length _ _ (by norm_num)]
  · exact batchSizes_mem_of_dvd _ _ (by norm_num) (by norm_num)

/-- C4 witness: the theorem at target 5, batch size 2 (3 batches: 2, 2, 1). -/
theorem batching_partitions_witness :
    (batchSizes 5 2).length = (5 + 2 - 1) / 2 ∧
    (∀ s ∈ batchSizes 5 2, 0 < s ∧ s ≤ 2) ∧
    (batchSizes 5 2).sum = 5 ∧
    (¬ 2 ∣ 5 → (batchSizes 5 2).getLast? = some (5 % 2)) ∧
    batchSizes 200 1000 = [200] ∧
    (batchSizes 2000000 1000).length = 2000 ∧
    (∀ s ∈ batchSizes 2000000 1000, s = 1000) :=
  batching_partitions 5 2 (by decide)

/-- C5: two rows generated at distinct sequential indices get distinct
emails in both the `users` and the `dim_customer` generation pass,
whatever strings the pseudo-random email source returns, because the
decimal index embedded in the local part contains no underscore. -/
theorem emails_unique (uds : ℕ → UserDraws) (cds : ℕ → CustomerDraws) (i j : ℕ)
    (hij : i ≠ j) :
    (genUser i (uds i)).email ≠ (genUser j (uds j)).email ∧
    (genCustomer i (cds i)).email ≠ (genCustomer j (cds j)).email := by
  constructor
  · intro h
    exact hij (mkEmail_inj "user" i j _ _ h)
  · intro h
    exact hij (mkEmail_inj "cust" i j _ _ h)

/-- C5 witness: rows 0 and 1 of each pass get distinct emails. -/
theorem emails_unique_witness :
    (genUser 0 (cUserDraws 0)).email ≠ (genUser 1 (cUserDraws 1)).email ∧
    (genCustomer 0 (cCustomerDraws 0)).email ≠ (genCustomer 1 (cCustomerDraws 1)).email :=
  emails_unique cUserDraws cCustomerDraws 0 1 (by decide)

theorem genDimProduct_facts (dds : ℕ → DimProductDraws) :
    ∀ r ∈ genDimProductsTable dds,
      r.category ∈ categories ∧ r.subcategory ∈ subcategories r.category := by
  intro r hr
  simp only [genDimProductsTable, List.mem_map, List.mem_range] at hr
  obtain ⟨k, -, rfl⟩ := hr
  have hcat_lt : fakerInt 0 4 (dds k).catDraw < 5 := by
    have := fakerInt_le_right 0 4 (dds k).catDraw (by norm_num)
    omega
  have hcat_len : fakerInt 0 4 (dds k).catDraw < categories.length := by
    simpa [categories] using hcat_lt
  have hmem : categories.getD (fakerInt 0 4 (dds k).catDraw) "" ∈ categories :=
    getD_mem _ _ _ hcat_len
  refine ⟨hmem, ?_⟩
  have hlen4 : (subcategories (categories.getD (fakerInt 0 4 (dds k).catDraw) "")).length = 4 :=
    subcategories_len_of_mem _ hmem
  have hidx : fakerInt 0
      ((subcategories (categories.getD (fakerInt 0 4 (dds k).catDraw) "")).length - 1)
      (dds k).subDraw <
      (subcategories (categories.getD (fakerInt 0 4 (dds k).catDraw) "")).length := by
    have := fakerInt_le_right 0
      ((subcategories (categories.getD (fakerInt 0 4 (dds k).catDraw) "")).length - 1)
      (dds k).subDraw (by omega)
    omega
  exact getD_mem _ _ _ hidx

/-- C6: every generated `dim_product` row's category is one of the five
fixed categories and its subcategory belongs to that category's fixed
subcategory list, for every possible sequence of draws. -/
theorem subcategory_matches_category (dds : ℕ → DimProductDraws) :
    ∀ r ∈ genDimProductsTable dds,
      r.category ∈ categories ∧ r.subcategory ∈ subcategories r.category :=
  genDimProduct_facts dds

/-- C6 witness: a concrete generated product row. -/
theorem subcategory_matches_category_witness :
    (genDimProduct (cDimProductDraws 0)).category ∈ categories ∧
    (genDimProduct (cDimProductDraws 0)).subcategory ∈
      subcategories (genDimProduct (cDimProductDraws 0)).category :=
  subcategory_matches_category cDimProductDraws _
    (List.mem_map_of_mem _ (List.mem_range.mpr (by norm_num [dimProductsCount])))

/-- C7: in the insert-event trace of each seeder, every `orders` insert
comes after every `users` and `products` insert, every `order_items` insert
comes after all inserts of the other three OLTP tables, and every
`fact_sales` insert comes after all dimension-table inserts. -/
theorem tables_seeded_in_dependency_order :
    (∀ i j : ℕ, j < oltpTrace.length →
      (oltpTrace.getD i (OltpTable.users, 0)).1 = OltpTable.orders →
      ((oltpTrace.getD j (OltpTable.users, 0)).1 = OltpTable.users ∨
        (oltpTrace.getD j (OltpTable.users, 0)).1 = OltpTable.products) → j < i) ∧
    (∀ i j : ℕ, j < oltpTrace.length →
      (oltpTrace.getD i (OltpTable.users, 0)).1 = OltpTable.orderItems →
      (oltpTrace.getD j (OltpTable.users, 0)).1 ≠ OltpTable.orderItems → j < i) ∧
    (∀ i j : ℕ, j < olapTrace.length →
      (olapTrace.getD i (OlapTable.dimDate, 0)).1 = OlapTable.factSales →
      (olapTrace.getD j (OlapTable.dimDate, 0)).1 ≠ OlapTable.factSales → j < i) := by
  refine ⟨?_, ?_, ?_⟩
  · intro i j hj hi hjt
    by_contra hcon
    push_neg at hcon
    have hmono := oltpTrace_mono i j hcon hj
    rw [hi] at hmono
    rcases hjt with h | h <;> rw [h] at hmono <;> simp [phaseOltp] at hmono
  · intro i j hj hi hjt
    by_contra hcon
    push_neg at hcon
    have hmono := oltpTrace_mono i j hcon hj
    rw [hi] at hmono
    have hle := phaseOltp_le_two _ hjt
    rw [show phaseOltp OltpTable.orderItems = 3 from rfl] at hmono
    omega
  · intro i j hj hi hjt
    by_contra hcon
    push_neg at hcon
    have hmono := olapTrace_mono i j hcon hj
    rw [hi] at hmono
    have hle := phaseOlap_le_three _ hjt
    rw [show phaseOlap OlapTable.factSales = 4 from rfl] at hmono
    omega

/-- C7 witness: the first `orders` insert (index 1001) follows the first
`users` insert (index 0); likewise for `order_items` (3001) and
`fact_sales` (504). -/
theorem tables_seeded_in_dependency_order_witness :
    0 < 1001 ∧ 0 < 3001 ∧ 0 < 504 := by
  obtain ⟨h1, h2, h3⟩ := tables_seeded_in_dependency_order
  refine ⟨?_, ?_, ?_⟩
  · exact h1 1001 0 (by rw [oltpTrace_length]; norm_num) oltpTrace_getD_orders
      (Or.inl oltpTrace_getD_zero)
  · exact h2 3001 0 (by rw [oltpTrace_length]; norm_num) oltpTrace_getD_items
      (by rw [oltpTrace_getD_zero]; decide)
  · exact h3 504 0 (by rw [olapTrace_length]; norm_num) olapTrace_getD_fact
      (by rw [olapTrace_getD_zero]; decide)

/-- C8: if the store rejects the bulk insert at event index `k` (all
earlier inserts succeeding), the run issues exactly the first `k + 1`
inserts — nothing further for that table nor for any later table — and
reports failure instead of success, in both seeders. -/
theorem batch_failure_aborts_run (store : ℕ → Bool) (k : ℕ)
    (hf : store k = false) (hs : ∀ m, m < k → store m = true) :
    (k < oltpTrace.length →
      runOk store oltpTrace 0 = false ∧
      runIssued store oltpTrace 0 = oltpTrace.take (k + 1)) ∧
    (k < olapTrace.length →
      runOk store olapTrace 0 = false ∧
      runIssued store olapTrace 0 = olapTrace.take (k + 1)) := by
  constructor
  · intro hk
    exact run_fail store oltpTrace k 0 (by simpa using hf)
      (fun m hm => by simpa using hs m hm) hk
  · intro hk
    exact run_fail store olapTrace k 0 (by simpa using hf)
      (fun m hm => by simpa using hs m hm) hk

/-- A store that rejects the very first bulk insert. -/
def failFirstStore : ℕ → Bool := fun m => decide (0 < m)

/-- C8 witness: with the first insert failing, each run issues exactly one
insert and reports failure. -/
theorem batch_failure_aborts_run_witness :
    (runOk failFirstStore oltpTrace 0 = false ∧
      runIssued failFirstStore oltpTrace 0 = oltpTrace.take 1) ∧
    (runOk failFirstStore olapTrace 0 = false ∧
      runIssued failFirstStore olapTrace 0 = olapTrace.take 1) := by
  obtain ⟨h1, h2⟩ := batch_failure_aborts_run failFirstStore 0 (by decide)
    (fun m hm => absurd hm (by omega))
  exact ⟨h1 (by rw [oltpTrace_length]; norm_num), h2 (by rw [olapTrace_length]; norm_num)⟩

/-- C9 counterexample: the code contains no configuration validation and no
`ConfigurationError`. Run with the (invalid) target row count `-1`, the
seeding loop issues no insert at all and the run completes successfully —
it is not detected before generation and nothing aborts, contradicting the
claim that an invalid configuration is detected and aborts the run as a
fatal `ConfigurationError`. -/
theorem invalid_config_not_detected :
    intTrace (-1) = [] ∧
    runOk (fun _ => true) (intTrace (-1)) 0 = true ∧
    runIssued (fun _ => true) (intTrace (-1)) 0 = [] := by
  refine ⟨rfl, rfl, rfl⟩

/-- C9 (amended): the seeders validate nothing, but their configuration is
hard-coded and always valid — the batch size 1000 is positive, every
vocabulary is nonempty, every generated product's category has a nonempty
subcategory list — and a run whose inserts all succeed finishes
successfully, so no row is ever generated under an invalid configuration. -/
theorem config_hardcoded_valid :
    0 < BATCH_SIZE ∧
    (∀ c ∈ categories, (subcategories c).length = 4) ∧
    statuses.length = 4 ∧ segments.length = 4 ∧ brands.length = 5 ∧
    categories.length = 5 ∧
    (∀ (dds : ℕ → DimProductDraws), ∀ r ∈ genDimProductsTable dds,
      subcategories r.category ≠ []) ∧
    runOk (fun _ => true) oltpTrace 0 = true ∧
    runOk (fun _ => true) olapTrace 0 = true := by
  refine ⟨by decide, subcategories_len_of_mem, rfl, rfl, rfl, rfl, ?_,
    runOk_all_true _ _, runOk_all_true _ _⟩
  intro dds r hr
  have hmem := (genDimProduct_facts dds r hr).1
  have hlen := subcategories_len_of_mem _ hmem
  intro hnil
  rw [hnil] at hlen
  simp at hlen

/-- C9 witness: the amended claim checked on the `Electronics` vocabulary
and on a concrete generated product row. -/
theorem config_hardcoded_valid_witness :
    (subcategories "Electronics").length = 4 ∧
    subcategories (genDimProduct (cDimProductDraws 0)).category ≠ [] :=
  ⟨config_hardcoded_valid.2.1 "Electronics" (by decide),
    config_hardcoded_valid.2.2.2.2.2.2.1 cDimProductDraws _
      (List.mem_map_of_mem _ (List.mem_range.mpr (by norm_num [dimProductsCount])))⟩

/-- C10: whatever the outcomes of the `DROP DATABASE` and `CREATE DATABASE`
statements, `manageDatabase` catches the error (logging `Error:`) and never
rethrows, and `setupOltp`/`setupOlap` still proceed to run the seeding
pass. -/
theorem lifecycle_failure_swallowed (dropQ createQ : QueryResult) (store : ℕ → Bool) :
    (manageDatabase dropQ createQ).thrown = false ∧
    setupOltp dropQ createQ store =
      some (runIssued store oltpTrace 0, runOk store oltpTrace 0) ∧
    setupOlap dropQ createQ store =
      some (runIssued store olapTrace 0, runOk store olapTrace 0) ∧
    ((dropQ = QueryResult.failed ∨ createQ = QueryResult.failed) →
      "Error:" ∈ (manageDatabase dropQ createQ).logs) := by
  cases dropQ <;> cases createQ <;> refine ⟨rfl, rfl, rfl, fun h => ?_⟩
  · rcases h with h | h <;> cases h
  · decide
  · decide
  · decide

/-- C10 witness: a failed `DROP DATABASE` is caught and logged. -/
theorem lifecycle_failure_swallowed_witness :
    "Error:" ∈ (manageDatabase QueryResult.failed QueryResult.ok).logs :=
  (lifecycle_failure_swallowed QueryResult.failed QueryResult.ok
    (fun _ => true)).2.2.2 (Or.inl rfl)
